import Mathlib

/-!
Verification development for the node resource of pytaskmanager
(`pytaskmanager/server/resource/node.py`).

The module exposes three Flask-RESTful resources over a directory store:

* `Nodes` at `/nodes` (list, register);
* `Node` at `/node/<int:uid>` (read, delete, upsert);
* `NodeTasks` at `/node/<int:uid>/task[/<int:taskresult_id>]`.

The store (`db.*` entities) is embedded as explicit state: a `Store`
value holding lists of records, threaded through each handler.  The
nondeterministic `uuid.uuid1()` call that mints a node api key is
embedded as an explicit `api_key` argument supplied by the environment;
its global-uniqueness promise becomes a freshness hypothesis where a
theorem needs it.  Response serialization (`marshmallow` schema dumps)
is the identity on records, as schema details are outside this core.
An unhandled Python exception (attribute access on `None`) is embedded
as the `none` result of an `Option`-valued handler.
-/

namespace PyTaskManager

/-- `db.Organization`: tenant unit owning users and nodes. -/
structure Db.Organization where
  id : Nat
  name : String
deriving DecidableEq, Repr

/-- `db.Collaboration`: named grouping that a node references.
Its id is an `Int` because the request field is parsed with
`type=int`. -/
structure Db.Collaboration where
  id : Int
  name : String
deriving DecidableEq, Repr

/-- `db.User`: the human principal.  `roles` is the plain string the
handlers compare against the literal `admin`. -/
structure Db.User where
  id : Nat
  organization : Db.Organization
  roles : String
deriving DecidableEq, Repr

/-- `g.user.organization_id`: the foreign-key column mirroring the
`organization` relationship. -/
def Db.User.organization_id (u : Db.User) : Nat :=
  u.organization.id

/-- `db.Node`: a registered compute node. -/
structure Db.Node where
  id : Nat
  name : String
  organization_id : Nat
  collaboration_id : Int
  api_key : String
deriving DecidableEq, Repr

/-- `db.TaskResult`: a result row owned by a node; `finished_at` is a
nullable timestamp, `none` while the result is still open. -/
structure Db.TaskResult where
  id : Nat
  node_id : Nat
  finished_at : Option String
deriving DecidableEq, Repr

/-- The directory store the handlers read and write.  `nextNodeId` is
the primary-key counter the store uses when `save()` persists a node
that has no id yet. -/
structure Store where
  collaborations : List Db.Collaboration
  nodes : List Db.Node
  taskresults : List Db.TaskResult
  nextNodeId : Nat
deriving DecidableEq, Repr

/-- `db.Node.get(uid)`: primary-key lookup. -/
def Db.Node.get (s : Store) (uid : Nat) : Option Db.Node :=
  s.nodes.find? (fun n => n.id = uid)

/-- `db.Collaboration.get(id)`: primary-key lookup. -/
def Db.Collaboration.get (s : Store) (cid : Int) : Option Db.Collaboration :=
  s.collaborations.find? (fun c => c.id = cid)

/-- `db.TaskResult.get(id)`: primary-key lookup. -/
def Db.TaskResult.get (s : Store) (rid : Nat) : Option Db.TaskResult :=
  s.taskresults.find? (fun r => r.id = rid)

/-- `node.taskresults`: the ORM relationship from a node to its result
rows. -/
def Db.Node.taskresults (s : Store) (n : Db.Node) : List Db.TaskResult :=
  s.taskresults.filter (fun r => r.node_id = n.id)

/-- The body of an HTTP response, by shape: an error message object
`{msg: ...}`, a dumped node, a dumped list of nodes, a dumped single
task result (`None` dumps to an empty object, kept as `none`), a
dumped list of task results, or an empty body. -/
inductive RespBody where
  | msg (m : String)
  | node (n : Db.Node)
  | nodeList (l : List Db.Node)
  | taskresult (r : Option Db.TaskResult)
  | results (l : List Db.TaskResult)
  | empty
deriving DecidableEq, Repr

/-- The state of the `collaboration_id` field in a request body before
`reqparse` runs: absent, present but not an integer, or an integer. -/
inductive RawField where
  | missing
  | malformed
  | intVal (n : Int)
deriving DecidableEq, Repr

/-- `reqparse` on the single required integer argument
`collaboration_id`: a missing or malformed field aborts the request
with a 400 error; an integer parses. -/
def parse_args (raw : RawField) : Except (RespBody × Nat) Int :=
  match raw with
  | .intVal n => .ok n
  | .missing => .error (.msg "This field cannot be left blank!", 400)
  | .malformed => .error (.msg "This field cannot be left blank!", 400)

/-- The principal attached by `@with_user_or_node`: either a user
session or a node authenticated by api key. -/
inductive Principal where
  | user (u : Db.User)
  | node (n : Db.Node)
deriving DecidableEq, Repr

/-- `Nodes.get`: list of nodes that are owned by the logged-in user.
Only the nodes of the user's organization are returned unless the
user is an admin. -/
def Nodes.get (s : Store) (user : Db.User) : List Db.Node :=
  let nodes := s.nodes
  if user.roles ≠ "admin" then
    nodes.filter (fun node => node.organization_id = user.organization_id)
  else
    nodes

/-- `Nodes.post`: register a new node.  Parses `collaboration_id`,
checks the collaboration exists, mints a fresh api key (the
`api_key` argument stands for `str(uuid.uuid1())`), builds the node
named after the organization and collaboration, persists it, and
returns it with status 201. -/
def Nodes.post (s : Store) (user : Db.User) (raw : RawField) (api_key : String) :
    (RespBody × Nat) × Store :=
  match parse_args raw with
  | .error e => (e, s)
  | .ok cid =>
    match Db.Collaboration.get s cid with
    | none => ((.msg "collaboration_id does not exist", 400), s)
    | some collaboration =>
      let organization := user.organization
      let node : Db.Node :=
        { id := s.nextNodeId
          name := organization.name ++ " - " ++ collaboration.name ++ " Node"
          organization_id := organization.id
          collaboration_id := cid
          api_key := api_key }
      ((.node node, 201),
        { s with nodes := s.nodes ++ [node], nextNodeId := s.nextNodeId + 1 })

/-- `Node.get`: single node info.  404 when the uid names no node, 403
when a non-admin user addresses a node of another organization, 200
with the dumped node otherwise. -/
def Node.get (s : Store) (user : Db.User) (uid : Nat) : RespBody × Nat :=
  match Db.Node.get s uid with
  | none => (.msg "node not found", 404)
  | some node =>
    if node.organization_id ≠ user.organization_id ∧ user.roles ≠ "admin" then
      (.msg "you are not allowed to see this node", 403)
    else
      (.node node, 200)

/-- `Node.delete`: delete node account, under the same existence and
organization checks as `Node.get`; a successful delete returns an
empty body. -/
def Node.delete (s : Store) (user : Db.User) (uid : Nat) :
    (RespBody × Nat) × Store :=
  match Db.Node.get s uid with
  | none => ((.msg "node not found", 404), s)
  | some node =>
    if node.organization_id ≠ user.organization_id ∧ user.roles ≠ "admin" then
      ((.msg "you are not allowed to delete this node", 403), s)
    else
      ((.empty, 200), { s with nodes := s.nodes.filter (fun n => n.id ≠ node.id) })

/-- `Node.put`: update existing node, with upsert semantics.  When the
uid names no node the handler re-runs the creation logic of
`Nodes.post` (the path uid is not used as the new id); when it does,
the handler checks organization scope and reassigns
`collaboration_id`.  The bare `return node` yields status 200. -/
def Node.put (s : Store) (user : Db.User) (uid : Nat) (raw : RawField)
    (api_key : String) : (RespBody × Nat) × Store :=
  match parse_args raw with
  | .error e => (e, s)
  | .ok cid =>
    match Db.Node.get s uid with
    | none =>
      match Db.Collaboration.get s cid with
      | none => ((.msg "collaboration_id does not exist", 400), s)
      | some collaboration =>
        let organization := user.organization
        let node : Db.Node :=
          { id := s.nextNodeId
            name := organization.name ++ " - " ++ collaboration.name ++ " Node"
            organization_id := organization.id
            collaboration_id := cid
            api_key := api_key }
        ((.node node, 200),
          { s with nodes := s.nodes ++ [node], nextNodeId := s.nextNodeId + 1 })
    | some node =>
      if node.organization_id ≠ user.organization_id ∧ user.roles ≠ "admin" then
        ((.msg "you are not allowed to edit this node", 403), s)
      else
        let node' := { node with collaboration_id := cid }
        ((.node node', 200),
          { s with nodes := s.nodes.map (fun n => if n.id = node.id then node' else n) })

/-- `NodeTasks.get`: with a `taskresult_id`, dump the task result found
by that id alone; otherwise list the task results of node `uid`,
keeping only the unfinished ones when the query parameter `state`
equals `open`.  When the uid names no node the list branch
dereferences `None` (`node.taskresults` raises `AttributeError`),
embedded as the `none` outcome. -/
def NodeTasks.get (s : Store) (p : Principal) (uid : Nat)
    (taskresult_id : Option Nat) (state : Option String) :
    Option (RespBody × Nat) :=
  match taskresult_id with
  | some rid =>
    some (.taskresult (Db.TaskResult.get s rid), 200)
  | none =>
    match Db.Node.get s uid with
    | none => none
    | some node =>
      if state = some "open" then
        some (.results ((Db.Node.taskresults s node).filter
          (fun r => r.finished_at = none)), 200)
      else
        some (.results (Db.Node.taskresults s node), 200)

/-- The api keys currently stored across all nodes. -/
def Store.apiKeys (s : Store) : List String :=
  s.nodes.map (fun n => n.api_key)

/-- The primary keys currently stored across all nodes. -/
def Store.nodeIds (s : Store) : List Nat :=
  s.nodes.map (fun n => n.id)

/- Concrete fixtures, following the scenarios of the specification:
two organizations, one collaboration, an admin and one member per
organization, one node per organization, and three task results (two
for the first node, one open and one finished). -/

def orgA : Db.Organization := { id := 1, name := "OrgA" }

def orgB : Db.Organization := { id := 2, name := "OrgB" }

def collabC : Db.Collaboration := { id := 1, name := "C1" }

def adminU : Db.User := { id := 1, organization := orgA, roles := "admin" }

def memberA : Db.User := { id := 2, organization := orgA, roles := "member" }

def memberB : Db.User := { id := 3, organization := orgB, roles := "member" }

def nodeA : Db.Node :=
  { id := 1, name := "OrgA - C1 Node", organization_id := 1
    collaboration_id := 1, api_key := "keyA" }

def nodeB : Db.Node :=
  { id := 2, name := "OrgB - C1 Node", organization_id := 2
    collaboration_id := 1, api_key := "keyB" }

def resOpen : Db.TaskResult := { id := 1, node_id := 1, finished_at := none }

def resDone : Db.TaskResult :=
  { id := 2, node_id := 1, finished_at := some "2024-01-01T00:00:00Z" }

def resOther : Db.TaskResult := { id := 3, node_id := 2, finished_at := none }

def store0 : Store :=
  { collaborations := [collabC]
    nodes := [nodeA, nodeB]
    taskresults := [resOpen, resDone, resOther]
    nextNodeId := 3 }

/-! ## Theorems -/

/-- A successful primary-key lookup returns a stored node bearing the
looked-up id. -/
theorem Db.Node.get_some (s : Store) (uid : Nat) (node : Db.Node)
    (h : Db.Node.get s uid = some node) : node.id = uid ∧ node ∈ s.nodes := by
  unfold Db.Node.get at h
  refine ⟨?_, List.mem_of_find?_eq_some h⟩
  have hp := List.find?_some h
  simpa using hp

/-- C1: for every node uid naming an existing node, GET
`/node/{uid}/task?state=open` returns with status 200 exactly those
stored TaskResults of that node whose `finished_at` is unset, and the
same GET without the state filter returns all of that node's
TaskResults, open and finished. -/
theorem nodeTasks_list_state_filter (s : Store) (p : Principal) (uid : Nat)
    (node : Db.Node) (h : Db.Node.get s uid = some node) :
    (∃ l, NodeTasks.get s p uid none (some "open") = some (.results l, 200) ∧
      ∀ r, r ∈ l ↔ r ∈ s.taskresults ∧ r.node_id = uid ∧ r.finished_at = none) ∧
    (∃ l, NodeTasks.get s p uid none none = some (.results l, 200) ∧
      ∀ r, r ∈ l ↔ r ∈ s.taskresults ∧ r.node_id = uid) := by
  obtain ⟨hid, -⟩ := Db.Node.get_some s uid node h
  constructor
  · refine ⟨(Db.Node.taskresults s node).filter (fun r => r.finished_at = none),
      by simp [NodeTasks.get, h], ?_⟩
    intro r
    simp only [Db.Node.taskresults, List.mem_filter, hid, decide_eq_true_eq,
      and_assoc]
  · refine ⟨Db.Node.taskresults s node, by simp [NodeTasks.get, h], ?_⟩
    intro r
    simp [Db.Node.taskresults, List.mem_filter, hid]

/-- Witness for C1 on the concrete store: node 1 exists, the open
filter returns exactly the single unfinished result, the unfiltered
list returns both of node 1's results. -/
theorem nodeTasks_list_state_filter_witness :
    Db.Node.get store0 1 = some nodeA ∧
    ((∃ l, NodeTasks.get store0 (.user memberA) 1 none (some "open") =
        some (.results l, 200) ∧
      ∀ r, r ∈ l ↔ r ∈ store0.taskresults ∧ r.node_id = 1 ∧
        r.finished_at = none) ∧
    (∃ l, NodeTasks.get store0 (.user memberA) 1 none none =
        some (.results l, 200) ∧
      ∀ r, r ∈ l ↔ r ∈ store0.taskresults ∧ r.node_id = 1)) :=
  ⟨by decide, nodeTasks_list_state_filter store0 (.user memberA) 1 nodeA (by decide)⟩

/-- C3: listing nodes returns every stored node to an admin caller,
and to a non-admin caller exactly the stored nodes of the caller's own
organization. -/
theorem nodes_list_org_scoped (s : Store) (user : Db.User) (node : Db.Node) :
    (user.roles = "admin" → Nodes.get s user = s.nodes) ∧
    (user.roles ≠ "admin" →
      (node ∈ Nodes.get s user ↔
        node ∈ s.nodes ∧ node.organization_id = user.organization_id)) := by
  constructor
  · intro hadm
    simp [Nodes.get, hadm]
  · intro hadm
    simp [Nodes.get, hadm, List.mem_filter]

/-- Witness for C3 on the concrete store: the admin sees all nodes,
and whether the member of organization A sees node B reduces to node
B belonging to organization A, which it does not. -/
theorem nodes_list_org_scoped_witness :
    (adminU.roles = "admin" → Nodes.get store0 adminU = store0.nodes) ∧
    ((memberA.roles = "admin" → Nodes.get store0 memberA = store0.nodes) ∧
      (memberA.roles ≠ "admin" →
        (nodeB ∈ Nodes.get store0 memberA ↔
          nodeB ∈ store0.nodes ∧
            nodeB.organization_id = memberA.organization_id))) ∧
    nodeB ∉ Nodes.get store0 memberA :=
  ⟨(nodes_list_org_scoped store0 adminU nodeA).1,
   nodes_list_org_scoped store0 memberA nodeB,
   by decide⟩

/-- C7: a GET with a `taskresult_id` naming an existing TaskResult
returns that result looked up by id alone, with the same 200 response
for every principal and every addressed node uid: no ownership check
relates the result to the path uid or to the caller. -/
theorem nodeTasks_single_fetch_unchecked (s : Store) (rid : Nat)
    (r : Db.TaskResult) (h : Db.TaskResult.get s rid = some r) :
    ∀ (p q : Principal) (uid uid' : Nat) (state state' : Option String),
      NodeTasks.get s p uid (some rid) state = some (.taskresult (some r), 200) ∧
      NodeTasks.get s p uid (some rid) state =
        NodeTasks.get s q uid' (some rid) state' := by
  intro p q uid uid' state state'
  simp [NodeTasks.get, h]

/-- Witness for C7 on the concrete store: result 3 belongs to node 2,
yet fetching it through node 1 as the cross-organization member B
succeeds identically to fetching it through node 2 as the admin. -/
theorem nodeTasks_single_fetch_unchecked_witness :
    Db.TaskResult.get store0 3 = some resOther ∧
    (NodeTasks.get store0 (.user memberB) 1 (some 3) none =
        some (.taskresult (some resOther), 200) ∧
      NodeTasks.get store0 (.user memberB) 1 (some 3) none =
        NodeTasks.get store0 (.user adminU) 2 (some 3) none) :=
  ⟨by decide,
   nodeTasks_single_fetch_unchecked store0 3 resOther (by decide)
     (.user memberB) (.user adminU) 1 2 none none⟩

/-- C10: the list form of GET `/node/{uid}/task` is not total: when
uid names no node the handler dereferences the missing node and the
embedded computation yields the crash outcome `none` — no 404 and no
empty-list 200 response is produced. -/
theorem nodeTasks_list_missing_node_crashes (s : Store) (p : Principal)
    (uid : Nat) (state : Option String) (h : Db.Node.get s uid = none) :
    NodeTasks.get s p uid none state = none := by
  simp [NodeTasks.get, h]

/-- Witness for C10 on the concrete store: uid 99 names no node and
the list request crashes rather than answering. -/
theorem nodeTasks_list_missing_node_crashes_witness :
    Db.Node.get store0 99 = none ∧
    NodeTasks.get store0 (.user adminU) 99 none none = none :=
  ⟨by decide,
   nodeTasks_list_missing_node_crashes store0 (.user adminU) 99 none (by decide)⟩

/-- C5 is false as stated: a non-admin caller addressing uid 99, which
names no node, receives 404, not the 403 the claim predicts for every
uid regardless of existence. -/
theorem node_get_missing_uid_not_forbidden :
    memberA.roles ≠ "admin" ∧
    Db.Node.get store0 99 = none ∧
    (∀ node, Db.Node.get store0 99 = some node →
      node.organization_id ≠ memberA.organization_id) ∧
    (Node.get store0 memberA 99).2 = 404 ∧
    ¬((Node.get store0 memberA 99).2 = 403) := by
  refine ⟨by decide, by decide, ?_, by decide, by decide⟩
  intro node hn
  rw [show Db.Node.get store0 99 = none by decide] at hn
  cases hn

/-- C5 amended: a non-admin caller addressing an existing node of
another organization receives 403; when the uid names no node the
response is 404 instead. -/
theorem node_get_scope_check (s : Store) (user : Db.User) (uid : Nat)
    (hadmin : user.roles ≠ "admin") :
    (∀ node, Db.Node.get s uid = some node →
      node.organization_id ≠ user.organization_id →
      Node.get s user uid = (.msg "you are not allowed to see this node", 403)) ∧
    (Db.Node.get s uid = none →
      Node.get s user uid = (.msg "node not found", 404)) := by
  constructor
  · intro node h hne
    simp [Node.get, h, hne, hadmin]
  · intro h
    simp [Node.get, h]

/-- Witness for the amended C5 on the concrete store: member B is not
admin; fetching node 1 (organization A) yields 403 and fetching the
nonexistent uid 99 yields 404. -/
theorem node_get_scope_check_witness :
    memberB.roles ≠ "admin" ∧
    Db.Node.get store0 1 = some nodeA ∧
    nodeA.organization_id ≠ memberB.organization_id ∧
    Node.get store0 memberB 1 =
      (.msg "you are not allowed to see this node", 403) ∧
    Db.Node.get store0 99 = none ∧
    Node.get store0 memberB 99 = (.msg "node not found", 404) :=
  ⟨by decide, by decide, by decide,
   (node_get_scope_check store0 memberB 1 (by decide)).1 nodeA
     (by decide) (by decide),
   by decide,
   (node_get_scope_check store0 memberB 99 (by decide)).2 (by decide)⟩

/-- C2: when uid names no node, PUT `/node/{uid}` runs the same logic
as POST `/nodes` on the same body: the stores after both calls agree,
the response bodies agree, a successful creation returns through PUT
the very node POST returns (only the status differs, 200 against 201)
with its id drawn from the store counter rather than from the path
uid, and every body POST rejects with 400 PUT rejects with 400. -/
theorem node_put_missing_uid_refines_post (s : Store) (user : Db.User)
    (uid : Nat) (raw : RawField) (api_key : String)
    (h : Db.Node.get s uid = none) :
    (Node.put s user uid raw api_key).2 = (Nodes.post s user raw api_key).2 ∧
    (Node.put s user uid raw api_key).1.1 = (Nodes.post s user raw api_key).1.1 ∧
    (∀ node, (Nodes.post s user raw api_key).1 = (.node node, 201) →
      (Node.put s user uid raw api_key).1 = (.node node, 200) ∧
      node.id = s.nextNodeId) ∧
    ((Nodes.post s user raw api_key).1.2 = 400 →
      (Node.put s user uid raw api_key).1.2 = 400) := by
  cases raw with
  | missing => simp [Node.put, Nodes.post, parse_args, h]
  | malformed => simp [Node.put, Nodes.post, parse_args, h]
  | intVal n =>
    cases hcol : Db.Collaboration.get s n with
    | none => simp [Node.put, Nodes.post, parse_args, h, hcol]
    | some c =>
      refine ⟨by simp [Node.put, Nodes.post, parse_args, h, hcol], ?_, ?_, ?_⟩
      · simp [Node.put, Nodes.post, parse_args, h, hcol]
      · intro node hnode
        simp only [Nodes.post, parse_args, hcol] at hnode
        obtain ⟨hn, -⟩ := Prod.mk.injEq .. ▸ hnode
        simp only [Node.put, parse_args, h, hcol]
        constructor
        · cases hn
          rfl
        · cases hn
          rfl
      · intro habs
        simp [Nodes.post, parse_args, hcol] at habs

/-- Witness for C2 on the concrete store: uid 50 names no node, and a
valid body creates through PUT the node POST would create, with id 3
taken from the store counter, not 50. -/
theorem node_put_missing_uid_refines_post_witness :
    Db.Node.get store0 50 = none ∧
    ((Node.put store0 memberA 50 (.intVal 1) "freshKey").2 =
        (Nodes.post store0 memberA (.intVal 1) "freshKey").2 ∧
      (Node.put store0 memberA 50 (.intVal 1) "freshKey").1.1 =
        (Nodes.post store0 memberA (.intVal 1) "freshKey").1.1 ∧
      (∀ node,
        (Nodes.post store0 memberA (.intVal 1) "freshKey").1 =
          (.node node, 201) →
        (Node.put store0 memberA 50 (.intVal 1) "freshKey").1 =
          (.node node, 200) ∧
        node.id = store0.nextNodeId) ∧
      ((Nodes.post store0 memberA (.intVal 1) "freshKey").1.2 = 400 →
        (Node.put store0 memberA 50 (.intVal 1) "freshKey").1.2 = 400)) :=
  ⟨by decide,
   node_put_missing_uid_refines_post store0 memberA 50 (.intVal 1) "freshKey"
     (by decide)⟩

/-- C8: POST `/nodes` rejects a missing or malformed
`collaboration_id` and one referencing no stored Collaboration with
400, leaving the store unchanged; on a valid reference it appends to
the store and returns with 201 a node owned by the creating user's
organization, named after the organization and collaboration, holding
the minted api key. -/
theorem nodes_post_spec (s : Store) (user : Db.User) (api_key : String)
    (cid : Int) :
    Nodes.post s user .missing api_key =
      ((.msg "This field cannot be left blank!", 400), s) ∧
    Nodes.post s user .malformed api_key =
      ((.msg "This field cannot be left blank!", 400), s) ∧
    (Db.Collaboration.get s cid = none →
      Nodes.post s user (.intVal cid) api_key =
        ((.msg "collaboration_id does not exist", 400), s)) ∧
    (∀ collaboration, Db.Collaboration.get s cid = some collaboration →
      ∃ node,
        Nodes.post s user (.intVal cid) api_key =
          ((.node node, 201),
            { s with nodes := s.nodes ++ [node],
                     nextNodeId := s.nextNodeId + 1 }) ∧
        node.organization_id = user.organization_id ∧
        node.name =
          user.organization.name ++ " - " ++ collaboration.name ++ " Node" ∧
        node.collaboration_id = cid ∧
        node.api_key = api_key) := by
  refine ⟨rfl, rfl, ?_, ?_⟩
  · intro hcol
    simp [Nodes.post, parse_args, hcol]
  · intro collaboration hcol
    refine ⟨{ id := s.nextNodeId,
              name := user.organization.name ++ " - " ++
                collaboration.name ++ " Node",
              organization_id := user.organization.id,
              collaboration_id := cid,
              api_key := api_key }, ?_, rfl, rfl, rfl, rfl⟩
    simp [Nodes.post, parse_args, hcol]

/-- Witness for C8 on the concrete store: collaboration 99 does not
exist and is rejected with 400 without a new node, collaboration 1
exists and the creation succeeds with the specified fields. -/
theorem nodes_post_spec_witness :
    Db.Collaboration.get store0 99 = none ∧
    Nodes.post store0 memberA (.intVal 99) "freshKey" =
      ((.msg "collaboration_id does not exist", 400), store0) ∧
    Db.Collaboration.get store0 1 = some collabC ∧
    (∃ node,
      Nodes.post store0 memberA (.intVal 1) "freshKey" =
        ((.node node, 201),
          { store0 with nodes := store0.nodes ++ [node],
                        nextNodeId := store0.nextNodeId + 1 }) ∧
      node.organization_id = memberA.organization_id ∧
      node.name =
        memberA.organization.name ++ " - " ++ collabC.name ++ " Node" ∧
      node.collaboration_id = 1 ∧
      node.api_key = "freshKey") := by
  refine ⟨by decide, ?_, by decide, ?_⟩
  · exact (nodes_post_spec store0 memberA "freshKey" 99).2.2.1 (by decide)
  · exact (nodes_post_spec store0 memberA "freshKey" 1).2.2.2 collabC (by decide)

/-- C9: a successful PUT on an existing node returns with 200 a node
that differs from the stored one only in `collaboration_id`; its id,
name, organization and api key are untouched, the store keeps every
other node unchanged, and the result rows, collaborations and id
counter are untouched. -/
theorem node_put_update_only_collaboration (s : Store) (user : Db.User)
    (uid : Nat) (cid : Int) (api_key : String) (node : Db.Node)
    (h : Db.Node.get s uid = some node)
    (hauth : node.organization_id = user.organization_id ∨
      user.roles = "admin") :
    ∃ node',
      (Node.put s user uid (.intVal cid) api_key).1 = (.node node', 200) ∧
      node'.id = node.id ∧
      node'.name = node.name ∧
      node'.organization_id = node.organization_id ∧
      node'.api_key = node.api_key ∧
      node'.collaboration_id = cid ∧
      (Node.put s user uid (.intVal cid) api_key).2 =
        { s with nodes :=
            s.nodes.map (fun n => if n.id = node.id then node' else n) } ∧
      (∀ n, n ∈ s.nodes → n.id ≠ node.id →
        n ∈ (Node.put s user uid (.intVal cid) api_key).2.nodes) := by
  have hcond : ¬(node.organization_id ≠ user.organization_id ∧
      user.roles ≠ "admin") := by
    rcases hauth with h1 | h1 <;> simp [h1]
  refine ⟨{ node with collaboration_id := cid }, ?_, rfl, rfl, rfl, rfl, rfl,
    ?_, ?_⟩
  · simp [Node.put, parse_args, h, hcond]
  · simp [Node.put, parse_args, h, hcond]
  · intro n hn hne
    simp only [Node.put, parse_args, h, hcond, if_false]
    refine List.mem_map.mpr ⟨n, hn, ?_⟩
    exact if_neg hne

/-- Witness for C9 on the concrete store: member A reassigns node 1 to
collaboration 1; the returned node keeps id, name, organization and
api key, and node 2 is still stored. -/
theorem node_put_update_only_collaboration_witness :
    Db.Node.get store0 1 = some nodeA ∧
    (nodeA.organization_id = memberA.organization_id ∨
      memberA.roles = "admin") ∧
    (∃ node',
      (Node.put store0 memberA 1 (.intVal 1) "freshKey").1 =
        (.node node', 200) ∧
      node'.id = nodeA.id ∧
      node'.name = nodeA.name ∧
      node'.organization_id = nodeA.organization_id ∧
      node'.api_key = nodeA.api_key ∧
      node'.collaboration_id = 1 ∧
      (Node.put store0 memberA 1 (.intVal 1) "freshKey").2 =
        { store0 with nodes :=
            store0.nodes.map (fun n => if n.id = nodeA.id then node' else n) } ∧
      (∀ n, n ∈ store0.nodes → n.id ≠ nodeA.id →
        n ∈ (Node.put store0 memberA 1 (.intVal 1) "freshKey").2.nodes)) :=
  ⟨by decide, by decide,
   node_put_update_only_collaboration store0 memberA 1 1 "freshKey" nodeA
     (by decide) (by decide)⟩

/-- C4 is false as stated: member A owns node 1, collaboration 99 does
not exist, yet PUT with `collaboration_id = 99` answers 200, not 400,
and changes the store — the update branch never validates the
collaboration reference. -/
theorem node_put_update_skips_collaboration_check :
    Db.Node.get store0 1 = some nodeA ∧
    Db.Collaboration.get store0 99 = none ∧
    (Node.put store0 memberA 1 (.intVal 99) "freshKey").1.2 = 200 ∧
    ¬((Node.put store0 memberA 1 (.intVal 99) "freshKey").1.2 = 400) ∧
    ¬((Node.put store0 memberA 1 (.intVal 99) "freshKey").2 = store0) := by
  decide

/-- C4 amended: PUT applies the `reqparse` validation (required,
integer-typed `collaboration_id`) in both branches, rejecting a
missing or malformed field with 400 and leaving the store unchanged;
but the Collaboration-existence validation of Create is not applied in
the update branch: when the addressed node exists and the caller is in
scope, a `collaboration_id` referencing no stored Collaboration is
accepted, assigned to the node, and answered with 200. -/
theorem node_put_update_no_collaboration_validation (s : Store)
    (user : Db.User) (uid : Nat) (cid : Int) (api_key : String)
    (node : Db.Node) (h : Db.Node.get s uid = some node)
    (hcol : Db.Collaboration.get s cid = none)
    (hauth : node.organization_id = user.organization_id ∨
      user.roles = "admin") :
    (Node.put s user uid (.intVal cid) api_key).1 =
      (.node { node with collaboration_id := cid }, 200) ∧
    Node.put s user uid .missing api_key =
      ((.msg "This field cannot be left blank!", 400), s) ∧
    Node.put s user uid .malformed api_key =
      ((.msg "This field cannot be left blank!", 400), s) := by
  have hcond : ¬(node.organization_id ≠ user.organization_id ∧
      user.roles ≠ "admin") := by
    rcases hauth with h1 | h1 <;> simp [h1]
  refine ⟨?_, rfl, rfl⟩
  simp [Node.put, parse_args, h, hcond]

/-- Witness for the amended C4 on the concrete store: node 1 exists,
collaboration 99 does not, member A is in scope, the update succeeds
anyway, and only the missing and malformed bodies are rejected. -/
theorem node_put_update_no_collaboration_validation_witness :
    Db.Node.get store0 1 = some nodeA ∧
    Db.Collaboration.get store0 99 = none ∧
    (nodeA.organization_id = memberA.organization_id ∨
      memberA.roles = "admin") ∧
    ((Node.put store0 memberA 1 (.intVal 99) "freshKey").1 =
        (.node { nodeA with collaboration_id := 99 }, 200) ∧
      Node.put store0 memberA 1 .missing "freshKey" =
        ((.msg "This field cannot be left blank!", 400), store0) ∧
      Node.put store0 memberA 1 .malformed "freshKey" =
        ((.msg "This field cannot be left blank!", 400), store0)) :=
  ⟨by decide, by decide, by decide,
   node_put_update_no_collaboration_validation store0 memberA 1 99 "freshKey"
     nodeA (by decide) (by decide) (by decide)⟩

/-- Appending a node whose api key is not yet stored keeps the stored
api keys pairwise distinct. -/
theorem apiKeys_append_nodup (s : Store) (node : Db.Node)
    (hk : node.api_key ∉ s.apiKeys) (hnodup : s.apiKeys.Nodup) :
    ((s.nodes ++ [node]).map (fun n => n.api_key)).Nodup := by
  rw [List.map_append]
  rw [List.nodup_append]
  refine ⟨hnodup, List.nodup_singleton _, ?_⟩
  intro a ha hb
  simp only [List.map_cons, List.map_nil, List.mem_singleton] at hb
  subst hb
  exact hk ha

/-- Replacing the stored node of a given primary key by a node with
the same api key leaves the stored api keys unchanged, provided the
primary keys are pairwise distinct. -/
theorem apiKeys_update_eq (nodes : List Db.Node) (node node' : Db.Node)
    (hids : (nodes.map (fun n => n.id)).Nodup) (hmem : node ∈ nodes)
    (hkey : node'.api_key = node.api_key) :
    (nodes.map (fun n => if n.id = node.id then node' else n)).map
        (fun n => n.api_key) = nodes.map (fun n => n.api_key) := by
  rw [List.map_map]
  apply List.map_congr_left
  intro a ha
  by_cases hid : a.id = node.id
  · have haeq : a = node := List.inj_on_of_nodup_map hids ha hmem hid
    simp [Function.comp, hid, hkey, haeq]
  · simp [Function.comp, hid]

/-- C6: with the uuid generator modelled as minting a key `k` not yet
stored, every successful creation — POST, or the create branch of PUT
— returns a node whose api key is `k` and hence differs from the api
key of every previously stored node, and every operation (POST, both
branches of PUT, DELETE) preserves pairwise distinctness of the
stored api keys, the store holding pairwise distinct primary keys. -/
theorem api_key_uniqueness_preserved (s : Store) (user : Db.User)
    (raw : RawField) (k : String) (uid : Nat)
    (hk : k ∉ s.apiKeys) (hnodup : s.apiKeys.Nodup)
    (hids : s.nodeIds.Nodup) :
    ((∀ node, (Nodes.post s user raw k).1 = (.node node, 201) →
        node.api_key = k ∧ node.api_key ∉ s.apiKeys) ∧
      (Nodes.post s user raw k).2.apiKeys.Nodup) ∧
    ((∀ node st, Db.Node.get s uid = none →
        (Node.put s user uid raw k).1 = (.node node, st) →
        node.api_key = k ∧ node.api_key ∉ s.apiKeys) ∧
      (Node.put s user uid raw k).2.apiKeys.Nodup) ∧
    (Node.delete s user uid).2.apiKeys.Nodup := by
  refine ⟨⟨?_, ?_⟩, ⟨?_, ?_⟩, ?_⟩
  · -- POST returns a freshly keyed node
    intro node hresp
    cases raw with
    | missing => simp [Nodes.post, parse_args] at hresp
    | malformed => simp [Nodes.post, parse_args] at hresp
    | intVal n =>
      cases hcol : Db.Collaboration.get s n with
      | none => simp [Nodes.post, parse_args, hcol] at hresp
      | some c =>
        simp only [Nodes.post, parse_args, hcol, Prod.mk.injEq,
          RespBody.node.injEq] at hresp
        obtain ⟨hn, -⟩ := hresp
        subst hn
        exact ⟨rfl, hk⟩
  · -- POST preserves api key distinctness
    cases raw with
    | missing => simpa [Nodes.post, parse_args] using hnodup
    | malformed => simpa [Nodes.post, parse_args] using hnodup
    | intVal n =>
      cases hcol : Db.Collaboration.get s n with
      | none => simpa [Nodes.post, parse_args, hcol] using hnodup
      | some c =>
        simp only [Nodes.post, parse_args, hcol, Store.apiKeys]
        exact apiKeys_append_nodup s _ hk hnodup
  · -- the create branch of PUT returns a freshly keyed node
    intro node st hnone hresp
    cases raw with
    | missing => simp [Node.put, parse_args] at hresp
    | malformed => simp [Node.put, parse_args] at hresp
    | intVal n =>
      cases hcol : Db.Collaboration.get s n with
      | none => simp [Node.put, parse_args, hnone, hcol] at hresp
      | some c =>
        simp only [Node.put, parse_args, hnone, hcol, Prod.mk.injEq,
          RespBody.node.injEq] at hresp
        obtain ⟨hn, -⟩ := hresp
        subst hn
        exact ⟨rfl, hk⟩
  · -- PUT preserves api key distinctness in both branches
    cases raw with
    | missing => simpa [Node.put, parse_args] using hnodup
    | malformed => simpa [Node.put, parse_args] using hnodup
    | intVal n =>
      cases hget : Db.Node.get s uid with
      | none =>
        cases hcol : Db.Collaboration.get s n with
        | none => simpa [Node.put, parse_args, hget, hcol] using hnodup
        | some c =>
          simp only [Node.put, parse_args, hget, hcol, Store.apiKeys]
          exact apiKeys_append_nodup s _ hk hnodup
      | some node =>
        obtain ⟨-, hmem⟩ := Db.Node.get_some s uid node hget
        by_cases hcond : node.organization_id ≠ user.organization_id ∧
            user.roles ≠ "admin"
        · simpa [Node.put, parse_args, hget, hcond] using hnodup
        · simp only [Node.put, parse_args, hget, hcond, if_false,
            Store.apiKeys]
          rw [apiKeys_update_eq s.nodes node
            { node with collaboration_id := n } hids hmem rfl]
          exact hnodup
  · -- DELETE preserves api key distinctness
    cases hget : Db.Node.get s uid with
    | none => simpa [Node.delete, hget] using hnodup
    | some node =>
      by_cases hcond : node.organization_id ≠ user.organization_id ∧
          user.roles ≠ "admin"
      · simpa [Node.delete, hget, hcond] using hnodup
      · simp only [Node.delete, hget, hcond, if_false, Store.apiKeys]
        exact List.Nodup.sublist
          (List.Sublist.map _ (List.filter_sublist s.nodes)) hnodup

/-- Witness for C6 on the concrete store: the key freshKey is not
stored, the stored api keys and primary keys are pairwise distinct,
and the conclusion holds at uid 1. -/
theorem api_key_uniqueness_preserved_witness :
    ¬("freshKey" ∈ store0.apiKeys) ∧ store0.apiKeys.Nodup ∧
    store0.nodeIds.Nodup ∧
    (((∀ node,
        (Nodes.post store0 memberA (.intVal 1) "freshKey").1 =
          (.node node, 201) →
        node.api_key = "freshKey" ∧ node.api_key ∉ store0.apiKeys) ∧
      (Nodes.post store0 memberA (.intVal 1) "freshKey").2.apiKeys.Nodup) ∧
    ((∀ node st, Db.Node.get store0 1 = none →
        (Node.put store0 memberA 1 (.intVal 1) "freshKey").1 =
          (.node node, st) →
        node.api_key = "freshKey" ∧ node.api_key ∉ store0.apiKeys) ∧
      (Node.put store0 memberA 1 (.intVal 1) "freshKey").2.apiKeys.Nodup) ∧
    (Node.delete store0 memberA 1).2.apiKeys.Nodup) :=
  ⟨by decide, by decide, by decide,
   api_key_uniqueness_preserved store0 memberA (.intVal 1) "freshKey" 1
     (by decide) (by decide) (by decide)⟩

end PyTaskManager
